import Mathlib

/-!
Shallow embedding of the retention/cleanup logic of `src/index.ts`
(a Docker Registry cleanup tool) and proofs about it.

The registry HTTP transport and the JSON parsing library are external
collaborators; fetched documents are modelled as explicit data, and each
fallible fetch as an `Option`-valued lookup.  JavaScript string
`localeCompare` on ISO-8601 timestamps is modelled as the lexicographic
order on `String`; JavaScript truthiness on strings (empty string is
falsy) is modelled explicitly by `truthy`.
-/

namespace RejiCleaner

/-! ## Semver tag matching (`SEMVER_PATTERN` / `isSemverTag`, index.ts:14-18)

The regex is `^v?(\d+)\.(\d+)\.(\d+)(?:-[\w.]+)?(?:\+[\w.]+)?$`.  Because the
character class `[\w.]` is disjoint from the delimiters `-` and `+`, and `\d`
is disjoint from `.`, greedy matching without backtracking decides the regex,
so the matcher below is an exact translation. -/

/-- A character of the regex class `[\w.]` (ASCII word character or dot). -/
def isWordDotChar (c : Char) : Bool :=
  c.isAlphanum || c == '_' || c == '.'

/-- Match the optional regex group `(?:<delim>[\w.]+)?` at the head of `cs`,
returning the remaining characters, or `none` if `<delim>` is present but not
followed by at least one `[\w.]` character. -/
def semverOptGroup (delim : Char) (cs : List Char) : Option (List Char) :=
  match cs with
  | [] => some []
  | c :: rest =>
    if c == delim then
      let (w, r) := rest.span isWordDotChar
      if w.isEmpty then none else some r
    else some (c :: rest)

/-- Match `(\d+)\.(\d+)\.(\d+)(?:-[\w.]+)?(?:\+[\w.]+)?$` against `cs`. -/
def semverCore (cs : List Char) : Bool :=
  let (d1, r1) := cs.span Char.isDigit
  if d1.isEmpty then false else
  match r1 with
  | '.' :: r2 =>
    let (d2, r3) := r2.span Char.isDigit
    if d2.isEmpty then false else
    match r3 with
    | '.' :: r4 =>
      let (d3, r5) := r4.span Char.isDigit
      if d3.isEmpty then false else
      match semverOptGroup '-' r5 with
      | none => false
      | some r6 =>
        match semverOptGroup '+' r6 with
        | none => false
        | some r7 => r7.isEmpty
    | _ => false
  | _ => false

/-- Model of `isSemverTag` (index.ts:16-18): the tag matches `SEMVER_PATTERN`. -/
def isSemverTag (tag : String) : Bool :=
  match tag.data with
  | 'v' :: rest => semverCore rest
  | cs => semverCore cs

/-! ## Tag records and the retention engine (`processRepository`, index.ts:396-512) -/

/-- Model of `TagInfo` (index.ts:21-26): one tag with its resolved digest and optional
creation timestamp (`created: created || undefined` makes a falsy timestamp
`undefined`, so `created` here is the already-truthy-filtered value). -/
structure TagInfo where
  name : String
  digest : String
  created : Option String
deriving DecidableEq

/-- Lexicographic "less-or-equal" on character lists: the model of
`x.localeCompare(y) ≤ 0` for the ISO-8601 timestamp strings being compared. -/
def charListLe : List Char → List Char → Bool
  | [], _ => true
  | _ :: _, [] => false
  | a :: as, b :: bs => if a = b then charListLe as bs else decide (a < b)

/-- Lexicographic "less-or-equal" on strings. -/
def strLe (a b : String) : Bool := charListLe a.data b.data

/-- The sort comparator of index.ts:436-441 turned into a "less-or-equal"
boolean: `tagLe a b` holds iff the JS comparator returns `≤ 0` on `(a, b)`,
i.e. iff `a` may precede `b`.  Records without `created` go last; timestamped
records are ordered by `created` descending (`b.created.localeCompare(a.created)`,
modelled as lexicographic order). -/
def tagLe (a b : TagInfo) : Bool :=
  match a.created, b.created with
  | none, none => true
  | none, some _ => false
  | some _, none => true
  | some sa, some sb => strLe sb sa

/-- Relation form of `tagLe`, as a decidable relation, for use with `List.insertionSort`. -/
def tagLeP (a b : TagInfo) : Prop := tagLe a b = true

instance : DecidableRel tagLeP := fun a b =>
  inferInstanceAs (Decidable (tagLe a b = true))

/-- The sort of index.ts:436-441.  JavaScript `Array.prototype.sort` is a
stable sort, and a stable sort w.r.t. a total preorder comparator has a unique
result, so the stable `insertionSort` computes the same list. -/
def sortTags (l : List TagInfo) : List TagInfo :=
  List.insertionSort tagLeP l

/-- index.ts:443-462: take the first `retentionCount` records of the sorted
list, then, if none of them has a semver name, append the first record of the
full sorted list whose name is semver and whose digest is not already among
the kept records' digests (if any). -/
def tagsToKeep (l : List TagInfo) (retentionCount : Nat) : List TagInfo :=
  let sorted := sortTags l
  let keep := sorted.take retentionCount
  if keep.any (fun t => isSemverTag t.name) then keep
  else
    match sorted.find? (fun t =>
        isSemverTag t.name && !(keep.any (fun k => k.digest == t.digest))) with
    | some t => keep ++ [t]
    | none => keep

/-- index.ts:464-468: the JS `Set` `digestsToKeep`, as a duplicate-free list
(only membership and cardinality of the set are ever observed). -/
def keepDigests (l : List TagInfo) (retentionCount : Nat) : List String :=
  ((tagsToKeep l retentionCount).map (fun t => t.digest)).dedup

/-- The key set of the `digestToTags` map (index.ts:412-425): every distinct
digest among the input records, as a duplicate-free list. -/
def allDigests (l : List TagInfo) : List String :=
  (l.map (fun t => t.digest)).dedup

/-- index.ts:486-501: every digest of `digestToTags` that is not in
`digestsToKeep` is marked for deletion. -/
def digestsToDelete (l : List TagInfo) (retentionCount : Nat) : List String :=
  (allDigests l).filter (fun d => !(decide (d ∈ keepDigests l retentionCount)))

/-- index.ts:503-511: the result counters of `processRepository`.  `delOk d`
tells whether the `deleteManifest` call for digest `d` reports success (in
dry-run mode it always does); `deleted` counts successes, `kept` is the size
of the `digestsToKeep` set. -/
def processCounts (delOk : String → Bool) (l : List TagInfo)
    (retentionCount : Nat) : Nat × Nat :=
  ((digestsToDelete l retentionCount).countP delOk,
   (keepDigests l retentionCount).length)

/-! ## Timestamp resolver (`getTagCreatedTime`, index.ts:313-366, and
`getAttestationBuildTime`, index.ts:266-311)

The network and the JSON parser are external: an environment `RegistryEnv`
holds the documents every fetch would return (`none` models any transport
error, non-success status or JSON parse failure of a whole response body).
JavaScript truthiness on the extracted string fields (the empty string is
falsy) is modelled by `truthy`. -/

/-- JS truthiness filter for an optional string field: an absent field or an
empty string is "not available". -/
def truthy : Option String → Option String
  | none => none
  | some s => if s.isEmpty then none else some s

/-- Prefix test on character lists. -/
def charListIsPrefix : List Char → List Char → Bool
  | [], _ => true
  | _ :: _, [] => false
  | a :: as, b :: bs => a == b && charListIsPrefix as bs

/-- Contiguous-substring test on character lists. -/
def charListHasInfix (sub : List Char) : List Char → Bool
  | [] => sub.isEmpty
  | c :: cs => charListIsPrefix sub (c :: cs) || charListHasInfix sub cs

/-- JS `String.prototype.includes`: substring test. -/
def strIncludes (s sub : String) : Bool :=
  charListHasInfix sub.data s.data

/-- One entry of `ReferrersResponse.manifests` (index.ts:46-52). -/
structure RefManifest where
  mediaType : String
  digest : String
  artifactType : Option String
deriving DecidableEq

/-- Model of `ReferrersResponse` (index.ts:46-52): `manifests` may be absent. -/
structure ReferrersDoc where
  manifests : Option (List RefManifest)
deriving DecidableEq

/-- Outcome of `JSON.parse` on a `v1Compatibility` string: the parser is an
external collaborator, so only its observable outcome is modelled — either it
throws, or it yields a document whose `created` field is extracted. -/
inductive V1Parse where
  | parseError
  | parsed (created : Option String)
deriving DecidableEq

/-- One entry of `DockerManifest.history` (index.ts:33-35): the raw
`v1Compatibility` string (whose truthiness is checked before parsing) together
with its `JSON.parse` outcome. -/
structure V1Entry where
  raw : String
  parse : V1Parse
deriving DecidableEq

/-- Model of `DockerManifest` (index.ts:29-36): `config?.digest` and `history?`. -/
structure ManifestDoc where
  configDigest : Option String
  history : List V1Entry
deriving DecidableEq

/-- Model of `DockerConfig` (index.ts:38-43): `created?` and `config?.Labels?`
(an absent label set behaves like an empty one). -/
structure ConfigDoc where
  created : Option String
  labels : List (String × String)
deriving DecidableEq

/-- Model of `runDetails.metadata` of a SLSA v1.0 attestation (index.ts:56-62). -/
structure SlsaRunMetadata where
  startedOn : Option String
deriving DecidableEq

/-- Model of `predicate.runDetails` of a SLSA v1.0 attestation (index.ts:56-62). -/
structure SlsaRunDetails where
  metadata : Option SlsaRunMetadata
deriving DecidableEq

/-- Model of `predicate.metadata` of a SLSA v0.2 attestation (index.ts:63-67). -/
structure SlsaV02Metadata where
  buildStartedOn : Option String
deriving DecidableEq

/-- Model of `Attestation.predicate` (index.ts:55-69). -/
structure AttPredicate where
  runDetails : Option SlsaRunDetails
  metadata : Option SlsaV02Metadata
deriving DecidableEq

/-- Model of `Attestation` (index.ts:55-69). -/
structure AttestationDoc where
  predicate : Option AttPredicate
deriving DecidableEq

/-- The fetched documents a single `(repository, tag)` resolution can observe:
the manifest body, config blobs by digest, the tag's HEAD digest, referrers
responses by digest, and attestation blobs by digest.  `none` anywhere models
a failed or empty fetch. -/
structure RegistryEnv where
  manifest : Option ManifestDoc
  configBlob : String → Option ConfigDoc
  manifestDigest : Option String
  referrers : String → Option ReferrersDoc
  attBlob : String → Option AttestationDoc

/-- Lookup of `Labels?.["org.opencontainers.image.created"]`: first match. -/
def lookupLabel (labels : List (String × String)) (key : String) : Option String :=
  (labels.find? (fun p => p.1 == key)).map (fun p => p.2)

/-- The attestation-manifest filter of index.ts:275-281. -/
def isAttestationRef (m : RefManifest) : Bool :=
  (match m.artifactType with
   | some a => strIncludes a "intoto" || strIncludes a "provenance"
   | none => false) ||
  strIncludes m.mediaType "intoto" || strIncludes m.mediaType "attestation"

/-- Model of `getAttestationBuildTime` (index.ts:266-311): referrers of the manifest
digest, first attestation-looking entry, fetch its blob, then SLSA v1.0
`predicate.runDetails.metadata.startedOn` before SLSA v0.2
`predicate.metadata.buildStartedOn`. -/
def getAttestationBuildTime (env : RegistryEnv) (manifestDigest : String) :
    Option String :=
  match env.referrers manifestDigest with
  | none => none
  | some r =>
    match r.manifests with
    | none => none
    | some ms =>
      match ms.find? isAttestationRef with
      | none => none
      | some am =>
        match env.attBlob am.digest with
        | none => none
        | some att =>
          match truthy ((att.predicate.bind (fun p => p.runDetails)).bind
              (fun rd => rd.metadata.bind (fun md => md.startedOn))) with
          | some v => some v
          | none =>
            truthy (att.predicate.bind (fun p =>
              p.metadata.bind (fun md => md.buildStartedOn)))

/-- The config-blob sources of index.ts:321-336: `config.created` first, then
the `org.opencontainers.image.created` label; `none` when the config digest is
absent/falsy, the blob fetch fails, or both fields are absent/falsy. -/
def configSources (env : RegistryEnv) (m : ManifestDoc) : Option String :=
  match truthy m.configDigest with
  | none => none
  | some cd =>
    match env.configBlob cd with
    | none => none
    | some cfg =>
      match truthy cfg.created with
      | some v => some v
      | none => truthy (lookupLabel cfg.labels "org.opencontainers.image.created")

/-- The attestation step of index.ts:346-356: resolve the tag's HEAD digest
(skipped when that fails or is falsy) and ask `getAttestationBuildTime`. -/
def attestationStep (env : RegistryEnv) : Option String :=
  match truthy env.manifestDigest with
  | none => none
  | some md => getAttestationBuildTime env md

/-- Model of `getTagCreatedTime` (index.ts:313-366).  Note the `JSON.parse` call on a
truthy `v1Compatibility` string: when it throws, the surrounding `try/catch`
returns `null` immediately, so the attestation step is never reached. -/
def getTagCreatedTime (env : RegistryEnv) : Option String :=
  match env.manifest with
  | none => none
  | some m =>
    match configSources env m with
    | some v => some v
    | none =>
      match m.history.head? with
      | some e =>
        if e.raw.isEmpty then attestationStep env
        else
          match e.parse with
          | V1Parse.parseError => none
          | V1Parse.parsed c =>
            match truthy c with
            | some v => some v
            | none => attestationStep env
      | none => attestationStep env

/-! ### Spec-side model of the resolver (for the refinement claim C5)

`resolverSpec` follows the spec's words in §4.2: four sources tried in strict
priority order, every failure — including a `JSON.parse` exception on the
v1-compatibility entry — treated as "source absent", continuing down the
chain. -/

/-- Modelled from the spec: source 1, "the image config blob's `created`
field". -/
def specSource1 (env : RegistryEnv) (m : ManifestDoc) : Option String :=
  match truthy m.configDigest with
  | none => none
  | some cd =>
    match env.configBlob cd with
    | none => none
    | some cfg => truthy cfg.created

/-- Modelled from the spec: source 2, "the OCI annotation
`org.opencontainers.image.created` on the config blob's label set". -/
def specSource2 (env : RegistryEnv) (m : ManifestDoc) : Option String :=
  match truthy m.configDigest with
  | none => none
  | some cd =>
    match env.configBlob cd with
    | none => none
    | some cfg => truthy (lookupLabel cfg.labels "org.opencontainers.image.created")

/-- Modelled from the spec: source 3, "the legacy v1-compatibility history
entry's embedded `created` field (first history entry only)", with a parse
exception "swallowed and treated as source absent". -/
def specSource3 (m : ManifestDoc) : Option String :=
  match m.history.head? with
  | none => none
  | some e =>
    if e.raw.isEmpty then none
    else
      match e.parse with
      | V1Parse.parseError => none
      | V1Parse.parsed c => truthy c

/-- Modelled from the spec: source 4, "the build-start timestamp of an
attached SLSA/in-toto attestation, located via the referrers API". -/
def specSource4 (env : RegistryEnv) : Option String :=
  attestationStep env

/-- Modelled from the spec: the full §4.2 chain — "trying sources in this
strict priority order, stopping at the first hit", all failures treated as
"source absent". -/
def resolverSpec (env : RegistryEnv) : Option String :=
  match env.manifest with
  | none => none
  | some m =>
    (((specSource1 env m).or (specSource2 env m)).or (specSource3 m)).or
      (specSource4 env)

/-- The condition under which the code's `JSON.parse` throws: a truthy
(non-empty) first `v1Compatibility` history entry that is not valid JSON. -/
def v1ParseAborts (m : ManifestDoc) : Bool :=
  match m.history.head? with
  | some e =>
    (match e.parse with
     | V1Parse.parseError => !e.raw.isEmpty
     | V1Parse.parsed _ => false)
  | none => false

/-- The §4.2 chain amended to the code's actual control flow: a `JSON.parse`
exception on the first v1-compatibility entry short-circuits the whole
resolution to `none` instead of falling through to the attestation source. -/
def resolverAmended (env : RegistryEnv) : Option String :=
  match env.manifest with
  | none => none
  | some m =>
    match (specSource1 env m).or (specSource2 env m) with
    | some v => some v
    | none =>
      if v1ParseAborts m then none
      else (specSource3 m).or (specSource4 env)

/-! ## `deleteManifest` (index.ts:368-394) -/

/-- The inputs `deleteManifest` depends on: the dry-run flag and the outcome
of the single DELETE request it may issue (`none`: transport error / thrown
fetch, `some s`: HTTP status `s`). -/
structure DeleteContext where
  dryRun : Bool
  response : Option Nat
deriving DecidableEq

/-- Model of `deleteManifest` (index.ts:368-394), returning (result, number of DELETE
requests issued).  In dry-run mode it returns `true` with no request; else it
issues exactly one request and succeeds only on HTTP 202 (any other status is
thrown and caught, any transport error caught, both yielding `false`). -/
def deleteManifest (ctx : DeleteContext) : Bool × Nat :=
  if ctx.dryRun then (true, 0)
  else
    match ctx.response with
    | none => (false, 1)
    | some status => if status == 202 then (true, 1) else (false, 1)

/-! ## Concrete inputs used by counterexamples and witnesses -/

/-- The end-to-end scenario of spec §8: repository `app`. -/
def repoApp : List TagInfo :=
  [⟨"v1.0.0", "D1", some "2024-01-01"⟩,
   ⟨"v1.1.0", "D2", some "2024-06-01"⟩,
   ⟨"latest", "D2", some "2024-06-01"⟩,
   ⟨"nightly", "D3", some "2024-09-01"⟩]

/-- Two tags sharing one digest, the newer one not semver: the semver top-up
finds no semver record with an unkept digest. -/
def aliasedSemverRepo : List TagInfo :=
  [⟨"latest", "D", some "2024-02-01"⟩,
   ⟨"v1.0.0", "D", some "2024-01-01"⟩]

/-- A repository whose only semver tag stands alone: used to witness the
amended semver invariant. -/
def soloSemverRepo : List TagInfo :=
  [⟨"v2.0.0", "E1", some "2024-03-01"⟩,
   ⟨"edge", "E2", some "2024-04-01"⟩]

/-- Three tags over two digests, the two newest sharing a digest: distinct
digests number 2, but retaining 2 records keeps only one digest. -/
def twoDigestRepo : List TagInfo :=
  [⟨"a", "D1", some "2024-03-01"⟩,
   ⟨"b", "D1", some "2024-02-01"⟩,
   ⟨"c", "D2", some "2024-01-01"⟩]

/-- An environment where config sources are absent, the first v1-compatibility
entry is truthy but not valid JSON, and a SLSA v1.0 attestation with a build
start time is attached: the code returns `none`, the spec chain returns the
attestation time. -/
def abortEnv : RegistryEnv where
  manifest := some ⟨none, [⟨"not json", V1Parse.parseError⟩]⟩
  configBlob := fun _ => none
  manifestDigest := some "sha256:md"
  referrers := fun d =>
    if d == "sha256:md" then
      some ⟨some [⟨"application/vnd.dsse.envelope.v1+json", "sha256:att",
        some "slsa-provenance"⟩]⟩
    else none
  attBlob := fun d =>
    if d == "sha256:att" then
      some ⟨some ⟨some ⟨some ⟨some "2024-05-01T00:00:00Z"⟩⟩, none⟩⟩
    else none

/-- A small fixed environment with one config blob carrying a `created`
field. -/
def plainEnv : RegistryEnv where
  manifest := some ⟨some "sha256:cfg", []⟩
  configBlob := fun d =>
    if d == "sha256:cfg" then some ⟨some "2024-07-01T00:00:00Z", []⟩ else none
  manifestDigest := some "sha256:md"
  referrers := fun _ => none
  attBlob := fun _ => none


/-- Totality of `charListLe`. -/
theorem charListLe_total : ∀ as bs, charListLe as bs = true ∨ charListLe bs as = true
  | [], _ => Or.inl rfl
  | _ :: _, [] => Or.inr rfl
  | a :: as, b :: bs => by
    rcases eq_or_ne a b with h | h
    · subst h
      rcases charListLe_total as bs with ih | ih
      · exact Or.inl (by simp [charListLe, ih])
      · exact Or.inr (by simp [charListLe, ih])
    · rcases lt_or_gt_of_ne h with hlt | hgt
      · exact Or.inl (by simp [charListLe, h, hlt])
      · exact Or.inr (by simp [charListLe, h.symm, hgt])

/-- Transitivity of `charListLe`. -/
theorem charListLe_trans : ∀ as bs cs, charListLe as bs = true →
    charListLe bs cs = true → charListLe as cs = true
  | [], _, _, _, _ => rfl
  | _ :: _, [], _, h, _ => by simp [charListLe] at h
  | _ :: _, _ :: _, [], _, h => by simp [charListLe] at h
  | a :: as, b :: bs, c :: cs, h1, h2 => by
    rcases eq_or_ne a b with hab | hab
    · subst hab
      rcases eq_or_ne a c with hac | hac
      · subst hac
        simp only [charListLe, if_pos rfl] at h1 h2 ⊢
        exact charListLe_trans as bs cs h1 h2
      · simpa [charListLe, hac] using h2
    · rcases eq_or_ne b c with hbc | hbc
      · subst hbc
        simpa [charListLe, hab] using h1
      · simp only [charListLe, if_neg hab, decide_eq_true_eq] at h1
        simp only [charListLe, if_neg hbc, decide_eq_true_eq] at h2
        have hac : a < c := lt_trans h1 h2
        simp [charListLe, ne_of_lt hac, hac]

instance : IsTotal TagInfo tagLeP where
  total a b := by
    obtain ⟨_, _, ac⟩ := a
    obtain ⟨_, _, bc⟩ := b
    unfold tagLeP tagLe
    rcases ac with _ | sa <;> rcases bc with _ | sb <;> simp
    exact charListLe_total sb.data sa.data

instance : IsTrans TagInfo tagLeP where
  trans a b c h1 h2 := by
    obtain ⟨_, _, ac⟩ := a
    obtain ⟨_, _, bc⟩ := b
    obtain ⟨_, _, cc⟩ := c
    unfold tagLeP tagLe at h1 h2 ⊢
    rcases ac with _ | sa <;> rcases bc with _ | sb <;> rcases cc with _ | sc <;>
      simp_all
    exact charListLe_trans sc.data sb.data sa.data h2 h1

/-! ### Structural lemmas about the retention engine -/

theorem mem_sortTags {l : List TagInfo} {t : TagInfo} :
    t ∈ sortTags l ↔ t ∈ l := by
  unfold sortTags
  exact List.mem_insertionSort tagLeP

/-- The final keep list is either the initial slice, or the initial slice with
one semver record (taken from the sorted list) appended. -/
theorem tagsToKeep_cases (l : List TagInfo) (n : Nat) :
    tagsToKeep l n = (sortTags l).take n ∨
      ∃ t ∈ sortTags l, isSemverTag t.name = true ∧
        tagsToKeep l n = (sortTags l).take n ++ [t] := by
  unfold tagsToKeep
  by_cases h : ((sortTags l).take n).any (fun t => isSemverTag t.name) = true
  · left
    simp [h]
  · simp only [Bool.not_eq_true] at h
    rcases hf : (sortTags l).find? (fun t =>
        isSemverTag t.name &&
          !(((sortTags l).take n).any (fun k => k.digest == t.digest))) with _ | t
    · left
      simp [h, hf]
    · right
      refine ⟨t, List.mem_of_find?_eq_some hf, ?_, by simp [h, hf]⟩
      have := List.find?_some hf
      exact (Bool.and_eq_true _ _).mp this |>.1

/-- Every record of the initial slice survives into the final keep list. -/
theorem take_subset_tagsToKeep {l : List TagInfo} {n : Nat} {t : TagInfo}
    (ht : t ∈ (sortTags l).take n) : t ∈ tagsToKeep l n := by
  rcases tagsToKeep_cases l n with h | ⟨s, _, _, h⟩
  · rw [h]; exact ht
  · rw [h]; exact List.mem_append_left _ ht

/-- Every kept record is one of the input records. -/
theorem tagsToKeep_subset {l : List TagInfo} {n : Nat} {t : TagInfo}
    (ht : t ∈ tagsToKeep l n) : t ∈ l := by
  rcases tagsToKeep_cases l n with h | ⟨s, hs, _, h⟩
  · rw [h] at ht
    exact mem_sortTags.mp (List.take_subset _ _ ht)
  · rw [h] at ht
    rcases List.mem_append.mp ht with h' | h'
    · exact mem_sortTags.mp (List.take_subset _ _ h')
    · rcases List.mem_singleton.mp h' with rfl
      exact mem_sortTags.mp hs

theorem mem_keepDigests {l : List TagInfo} {n : Nat} {d : String} :
    d ∈ keepDigests l n ↔ ∃ t ∈ tagsToKeep l n, t.digest = d := by
  unfold keepDigests
  simp [List.mem_dedup]

theorem mem_allDigests {l : List TagInfo} {d : String} :
    d ∈ allDigests l ↔ ∃ t ∈ l, t.digest = d := by
  unfold allDigests
  simp [List.mem_dedup]

theorem keepDigests_subset_allDigests {l : List TagInfo} {n : Nat} {d : String}
    (hd : d ∈ keepDigests l n) : d ∈ allDigests l := by
  rcases mem_keepDigests.mp hd with ⟨t, ht, rfl⟩
  exact mem_allDigests.mpr ⟨t, tagsToKeep_subset ht, rfl⟩

theorem mem_digestsToDelete {l : List TagInfo} {n : Nat} {d : String} :
    d ∈ digestsToDelete l n ↔ d ∈ allDigests l ∧ d ∉ keepDigests l n := by
  unfold digestsToDelete
  simp [List.mem_filter]

/-- No digest is both kept and marked for deletion. -/
theorem keep_delete_disjoint {l : List TagInfo} {n : Nat} {d : String}
    (hk : d ∈ keepDigests l n) (hd : d ∈ digestsToDelete l n) : False :=
  (mem_digestsToDelete.mp hd).2 hk

/-- When the initial slice contains no semver name and the scan finds a
qualifying record, the keep list is the slice with that record appended. -/
theorem tagsToKeep_of_find {l : List TagInfo} {n : Nat} {t : TagInfo}
    (hk : ¬((sortTags l).take n).any (fun t => isSemverTag t.name) = true)
    (hf : (sortTags l).find? (fun t => isSemverTag t.name &&
        !(((sortTags l).take n).any (fun k => k.digest == t.digest))) = some t) :
    tagsToKeep l n = (sortTags l).take n ++ [t] := by
  unfold tagsToKeep
  simp only [if_neg hk, hf]

/-! ## Claim theorems -/

/-- C4: on the concrete input with tags `v1.0.0` (D1, 2024-01-01), `v1.1.0`
(D2, 2024-06-01), `latest` (D2, same timestamp), `nightly` (D3, 2024-09-01)
and `retentionCount = 2`, the engine sorts descending to
nightly, v1.1.0/latest, v1.0.0, keeps exactly the two records nightly and
v1.1.0 (so the semver check is already satisfied and no top-up record is
appended), keeps digests {D3, D2}, deletes exactly {D1}, and the repository
result counters are deleted = 1 and kept = 2 (counted in digests, with every
delete call succeeding, as in dry-run mode). -/
theorem retention_scenario_app :
    sortTags repoApp =
      [⟨"nightly", "D3", some "2024-09-01"⟩,
       ⟨"v1.1.0", "D2", some "2024-06-01"⟩,
       ⟨"latest", "D2", some "2024-06-01"⟩,
       ⟨"v1.0.0", "D1", some "2024-01-01"⟩] ∧
    tagsToKeep repoApp 2 =
      [⟨"nightly", "D3", some "2024-09-01"⟩,
       ⟨"v1.1.0", "D2", some "2024-06-01"⟩] ∧
    keepDigests repoApp 2 = ["D3", "D2"] ∧
    digestsToDelete repoApp 2 = ["D1"] ∧
    processCounts (fun _ => true) repoApp 2 = (1, 2) := by
  decide

/-- C6: `deleteManifest` in dry-run mode returns `true` and issues no DELETE
request; otherwise it issues exactly one request (never retrying) and returns
`true` if and only if the HTTP status is exactly 202 (any other status and any
transport error yield `false`). -/
theorem deleteManifest_spec (ctx : DeleteContext) :
    ((deleteManifest ctx).2 = if ctx.dryRun then 0 else 1) ∧
    ((deleteManifest ctx).1 = true ↔
      ctx.dryRun = true ∨ ctx.response = some 202) := by
  obtain ⟨dr, resp⟩ := ctx
  unfold deleteManifest
  rcases dr
  · rcases resp with _ | s
    · simp
    · by_cases h : s = 202
      · subst h; simp
      · simp [h]
  · simp

/-- C7: in the sorted output, every record with a timestamp precedes every
record without one (if an earlier record lacks a timestamp, so does every
later one), and any two timestamped records appear in descending order of
their `created` values. -/
theorem sortTags_ordered (l : List TagInfo) :
    (sortTags l).Pairwise (fun a b =>
      (a.created = none → b.created = none) ∧
      (∀ sa sb, a.created = some sa → b.created = some sb →
        strLe sb sa = true)) := by
  have hs : (sortTags l).Pairwise tagLeP := List.sorted_insertionSort tagLeP l
  refine hs.imp ?_
  intro a b h
  unfold tagLeP tagLe at h
  constructor
  · intro ha
    rcases hb : b.created with _ | sb
    · rfl
    · rw [ha, hb] at h
      exact absurd h (by simp)
  · intro sa sb ha hb
    rw [ha, hb] at h
    exact h

/-- C9: the timestamp resolver is a pure function of the fetched documents —
two evaluations over the same manifest, config blobs, HEAD digest, referrers
responses and attestation blobs yield the same result. -/
theorem getTagCreatedTime_deterministic (e1 e2 : RegistryEnv)
    (hm : e1.manifest = e2.manifest) (hc : e1.configBlob = e2.configBlob)
    (hd : e1.manifestDigest = e2.manifestDigest)
    (hr : e1.referrers = e2.referrers) (ha : e1.attBlob = e2.attBlob) :
    getTagCreatedTime e1 = getTagCreatedTime e2 := by
  obtain ⟨m1, c1, d1, r1, a1⟩ := e1
  obtain ⟨m2, c2, d2, r2, a2⟩ := e2
  simp only [] at hm hc hd hr ha
  subst hm; subst hc; subst hd; subst hr; subst ha
  rfl

/-- Witness for C9: instantiating the determinism theorem at a concrete
environment. -/
theorem getTagCreatedTime_deterministic_witness :
    plainEnv.manifest = plainEnv.manifest ∧
      getTagCreatedTime plainEnv = getTagCreatedTime plainEnv :=
  ⟨rfl, getTagCreatedTime_deterministic plainEnv plainEnv rfl rfl rfl rfl rfl⟩

/-- C10: the keep list contains at most `retentionCount + 1` records (the
initial slice takes at most `retentionCount` and the semver top-up appends at
most one), so the kept digest set has at most `retentionCount + 1` elements. -/
theorem tagsToKeep_length_le (l : List TagInfo) (n : Nat) :
    (tagsToKeep l n).length ≤ n + 1 ∧ (keepDigests l n).length ≤ n + 1 := by
  have htake : ((sortTags l).take n).length ≤ n := by
    rw [List.length_take]
    exact min_le_left _ _
  have hkeep : (tagsToKeep l n).length ≤ n + 1 := by
    rcases tagsToKeep_cases l n with h | ⟨t, _, _, h⟩
    · rw [h]
      exact le_trans htake (Nat.le_succ n)
    · rw [h, List.length_append]
      exact Nat.add_le_add_right htake 1
  refine ⟨hkeep, le_trans ?_ hkeep⟩
  calc (keepDigests l n).length
      ≤ ((tagsToKeep l n).map (fun t => t.digest)).length :=
        (List.dedup_sublist _).length_le
    _ = (tagsToKeep l n).length := List.length_map _ _

/-- C2: the kept digests and the digests marked for deletion exactly
partition the set of digests occurring in the input — both are duplicate-free,
no digest is in both, and together they cover exactly the input digests. -/
theorem keep_delete_partition (l : List TagInfo) (n : Nat) :
    (keepDigests l n).Nodup ∧ (digestsToDelete l n).Nodup ∧
    ∀ d, (d ∈ allDigests l ↔ d ∈ keepDigests l n ∨ d ∈ digestsToDelete l n) ∧
      ¬(d ∈ keepDigests l n ∧ d ∈ digestsToDelete l n) := by
  refine ⟨List.nodup_dedup _, (List.nodup_dedup _).filter _,
    fun d => ⟨⟨fun hall => ?_, fun h => ?_⟩, fun h => ?_⟩⟩
  · by_cases hk : d ∈ keepDigests l n
    · exact Or.inl hk
    · exact Or.inr (mem_digestsToDelete.mpr ⟨hall, hk⟩)
  · rcases h with hk | hdel
    · exact keepDigests_subset_allDigests hk
    · exact (mem_digestsToDelete.mp hdel).1
  · exact keep_delete_disjoint h.1 h.2

/-- C1 counterexample: on the input with tags `latest` (digest D, newer) and
`v1.0.0` (digest D, older) with `retentionCount = 1`, a tag name matches the
semver pattern, yet after the top-up step no record of the keep list has a
semver name: the initial keep list is `[latest]`, and the scan skips `v1.0.0`
because its digest D is already represented among the kept digests. -/
theorem semver_in_keep_counterexample :
    (aliasedSemverRepo.any fun t => isSemverTag t.name) = true ∧
    ((tagsToKeep aliasedSemverRepo 1).any fun t => isSemverTag t.name) = false := by
  decide

/-- C1 amended: for every input list in which at least one tag name matches
the semver pattern, the kept *digest* set contains the digest of at least one
semver-named record, regardless of `retentionCount` — the keep list itself
need not contain a semver-named record when the newest semver tag's digest is
already kept through an alias tag. -/
theorem semver_digest_kept (l : List TagInfo) (n : Nat)
    (h : (l.any fun t => isSemverTag t.name) = true) :
    ∃ t ∈ l, isSemverTag t.name = true ∧ t.digest ∈ keepDigests l n := by
  rcases List.any_eq_true.mp h with ⟨s, hs, hsv⟩
  by_cases hk : (((sortTags l).take n).any fun t => isSemverTag t.name) = true
  · rcases List.any_eq_true.mp hk with ⟨k, hkm, hkv⟩
    have hk' : k ∈ tagsToKeep l n := take_subset_tagsToKeep hkm
    exact ⟨k, tagsToKeep_subset hk', hkv, mem_keepDigests.mpr ⟨k, hk', rfl⟩⟩
  · rcases hf : (sortTags l).find? (fun t => isSemverTag t.name &&
        !(((sortTags l).take n).any (fun k => k.digest == t.digest))) with _ | t
    · have hsl : s ∈ sortTags l := mem_sortTags.mpr hs
      have hns := List.find?_eq_none.mp hf s hsl
      rcases hz : ((sortTags l).take n).any (fun k => k.digest == s.digest) with _ | _
      · exact absurd (by simp [hsv, hz]) hns
      · rcases List.any_eq_true.mp hz with ⟨k, hkm, hkb⟩
        have hkd : k.digest = s.digest := eq_of_beq hkb
        have hk' : k ∈ tagsToKeep l n := take_subset_tagsToKeep hkm
        exact ⟨s, hs, hsv, mem_keepDigests.mpr ⟨k, hk', hkd⟩⟩
    · have hp := List.find?_some hf
      rw [Bool.and_eq_true] at hp
      have htk : tagsToKeep l n = (sortTags l).take n ++ [t] :=
        tagsToKeep_of_find hk hf
      have htmem : t ∈ tagsToKeep l n := by
        rw [htk]
        exact List.mem_append_right _ (List.mem_singleton.mpr rfl)
      exact ⟨t, mem_sortTags.mp (List.mem_of_find?_eq_some hf), hp.1,
        mem_keepDigests.mpr ⟨t, htmem, rfl⟩⟩

/-- Witness for C1 amended: on a repository whose only semver tag has its own
digest, the amended invariant produces a kept semver digest. -/
theorem semver_digest_kept_witness :
    (soloSemverRepo.any fun t => isSemverTag t.name) = true ∧
    ∃ t ∈ soloSemverRepo, isSemverTag t.name = true ∧
      t.digest ∈ keepDigests soloSemverRepo 1 :=
  ⟨by decide, semver_digest_kept soloSemverRepo 1 (by decide)⟩

/-- C3 counterexample: on three tags over two distinct digests where the two
newest records share a digest, `retentionCount = 2` is positive and at least
the number of distinct digests, yet the delete set is not empty (it contains
the digest of the oldest record). -/
theorem retention_ge_digests_counterexample :
    0 < 2 ∧ (allDigests twoDigestRepo).length ≤ 2 ∧
      digestsToDelete twoDigestRepo 2 ≠ [] := by
  decide

/-- C3 amended: if `retentionCount` is at least the number of input records
(rather than the number of distinct digests), the delete set is empty. -/
theorem delete_empty_of_retention_ge_records (l : List TagInfo) (n : Nat)
    (h : l.length ≤ n) : digestsToDelete l n = [] := by
  have hcov : ∀ d ∈ allDigests l, d ∈ keepDigests l n := by
    intro d hd
    rcases mem_allDigests.mp hd with ⟨t, htl, rfl⟩
    have hlen : (sortTags l).length = l.length :=
      (List.perm_insertionSort tagLeP l).length_eq
    have htake : (sortTags l).take n = sortTags l :=
      List.take_of_length_le (by rw [hlen]; exact h)
    have htt : t ∈ (sortTags l).take n := by
      rw [htake]
      exact mem_sortTags.mpr htl
    exact mem_keepDigests.mpr ⟨t, take_subset_tagsToKeep htt, rfl⟩
  unfold digestsToDelete
  rw [List.filter_eq_nil_iff]
  intro d hd
  simp [hcov d hd]

/-- Witness for C3 amended: with all three records retained the delete set is
empty. -/
theorem delete_empty_witness :
    twoDigestRepo.length ≤ 3 ∧ digestsToDelete twoDigestRepo 3 = [] :=
  ⟨by decide, delete_empty_of_retention_ge_records twoDigestRepo 3 (by decide)⟩

/-- C8: tags sharing one digest are co-located — the shared digest's
membership in the keep set (and in the delete set) is one single fact for all
alias tags, and no tag's digest can be marked for deletion while an alias
tag's digest is kept. -/
theorem alias_tags_colocated (l : List TagInfo) (n : Nat) (t1 t2 : TagInfo)
    (_h1 : t1 ∈ l) (_h2 : t2 ∈ l) (hd : t1.digest = t2.digest) :
    (t1.digest ∈ keepDigests l n ↔ t2.digest ∈ keepDigests l n) ∧
    (t1.digest ∈ digestsToDelete l n ↔ t2.digest ∈ digestsToDelete l n) ∧
    ¬(t1.digest ∈ digestsToDelete l n ∧ t2.digest ∈ keepDigests l n) := by
  rw [hd]
  exact ⟨Iff.rfl, Iff.rfl, fun h => keep_delete_disjoint h.2 h.1⟩

/-- Witness for C8: the alias pair `v1.1.0`/`latest` of the `app` scenario. -/
theorem alias_tags_colocated_witness :
    ((⟨"v1.1.0", "D2", some "2024-06-01"⟩ : TagInfo) ∈ repoApp ∧
     (⟨"latest", "D2", some "2024-06-01"⟩ : TagInfo) ∈ repoApp) ∧
    (((⟨"v1.1.0", "D2", some "2024-06-01"⟩ : TagInfo).digest ∈ keepDigests repoApp 2 ↔
      (⟨"latest", "D2", some "2024-06-01"⟩ : TagInfo).digest ∈ keepDigests repoApp 2) ∧
     ((⟨"v1.1.0", "D2", some "2024-06-01"⟩ : TagInfo).digest ∈ digestsToDelete repoApp 2 ↔
      (⟨"latest", "D2", some "2024-06-01"⟩ : TagInfo).digest ∈ digestsToDelete repoApp 2) ∧
     ¬((⟨"v1.1.0", "D2", some "2024-06-01"⟩ : TagInfo).digest ∈ digestsToDelete repoApp 2 ∧
       (⟨"latest", "D2", some "2024-06-01"⟩ : TagInfo).digest ∈ keepDigests repoApp 2)) :=
  ⟨⟨by decide, by decide⟩,
    alias_tags_colocated repoApp 2
      ⟨"v1.1.0", "D2", some "2024-06-01"⟩ ⟨"latest", "D2", some "2024-06-01"⟩
      (by decide) (by decide) rfl⟩

/-- The config-blob block of `getTagCreatedTime` tries exactly spec sources 1
and 2 in order. -/
theorem configSources_eq (env : RegistryEnv) (m : ManifestDoc) :
    configSources env m = (specSource1 env m).or (specSource2 env m) := by
  unfold configSources specSource1 specSource2
  rcases truthy m.configDigest with _ | cd
  · rfl
  · dsimp only []
    rcases env.configBlob cd with _ | cfg
    · rfl
    · dsimp only []
      rcases truthy cfg.created with _ | v
      · rfl
      · rfl

/-- C5 counterexample: in an environment where the config sources are absent,
the first v1-compatibility history entry is non-empty but not valid JSON, and
a SLSA v1.0 provenance attestation with a build-start time is attached, the
code returns `none` even though the fourth source of the spec's strict
priority chain is available (the spec-modelled chain returns it): the
`JSON.parse` exception is caught by the outer handler, which returns `null`
without ever consulting the attestation source. -/
theorem resolver_priority_counterexample :
    getTagCreatedTime abortEnv = none ∧
    resolverSpec abortEnv = some "2024-05-01T00:00:00Z" := by
  constructor
  · rfl
  · rfl

/-- C5 amended: the resolver tries the spec's four sources in the stated
strict priority order and returns `none` when all are absent or fail, with
one amendment — when the first v1-compatibility history entry is truthy but
`JSON.parse` throws on it, resolution short-circuits to `none` (the caught
exception skips the attestation source instead of treating source 3 as
absent).  No exception propagates: the resolver is a total function into
`Option`. -/
theorem resolver_follows_amended_chain (env : RegistryEnv) :
    getTagCreatedTime env = resolverAmended env := by
  obtain ⟨mo, cb, md, rf, ab⟩ := env
  rcases mo with _ | m
  · rfl
  · unfold getTagCreatedTime resolverAmended
    simp only []
    rw [configSources_eq]
    rcases (specSource1 ⟨some m, cb, md, rf, ab⟩ m).or
        (specSource2 ⟨some m, cb, md, rf, ab⟩ m) with _ | v
    · unfold v1ParseAborts specSource3
      dsimp only []
      rcases m.history.head? with _ | e
      · rfl
      · obtain ⟨raw, pr⟩ := e
        dsimp only []
        rcases pr with _ | c
        · dsimp only []
          rcases raw.isEmpty with _ | _
          · rfl
          · rfl
        · dsimp only []
          rcases raw.isEmpty with _ | _
          · rcases truthy c with _ | v
            · rfl
            · rfl
          · rfl
    · rfl

end RejiCleaner
